import Mathlib

/-!
# Verification of the issue-flow persistence layer

A shallow embedding of the storage package of `issue-flow`
(`internal/storage/db.go`) together with the project manager that sits on
top of it (`internal/project`).  The backing engine is SQLite; its state, as
observed through this layer, is modelled as an explicit record of the
schema objects that exist plus the rows of the three tables.  Timestamps
(`DEFAULT CURRENT_TIMESTAMP`) are modelled as a `Nat` supplied to each
writing operation; the real clock is always positive, which theorems track
with an explicit `0 < now` hypothesis where it matters.  SQL statements are
translated one by one into pure state transformers returning
`Except SqlError`, mirroring the `error` return of every Go method.
-/

namespace IssueFlow

/-- Errors surfaced by the engine through the storage layer.  The Go code
adds no translation: `database/sql`'s `ErrNoRows` escapes from `Get`
methods verbatim, and SQLite constraint violations escape from `Create`
methods verbatim, so the two kinds stay distinguishable to callers. -/
inductive SqlError where
  | ErrNoRows
  | ConstraintUnique (obj : String)
  | TableExists (name : String)
  | IndexExists (name : String)
deriving DecidableEq, Repr

namespace storage

/-- `storage.Project` of db.go: the flat row representation, with the
configuration already serialized to a string. -/
structure Project where
  ID : String
  Name : String
  GitHubOwner : String
  GitHubRepo : String
  LocalPath : String
  WorktreeDir : String
  Config : String
  CreatedAt : Nat
  UpdatedAt : Nat
deriving DecidableEq, Repr

/-- `storage.Worktree` of db.go. -/
structure Worktree where
  ID : String
  ProjectID : String
  IssueNumber : Int
  Path : String
  Branch : String
  Status : String
  CreatedAt : Nat
deriving DecidableEq, Repr

/-- `storage.IssueCache` of db.go.  The Go field `Type` is a reserved word
in Lean and is rendered `Type'`. -/
structure IssueCache where
  ID : Nat
  ProjectID : String
  IssueNumber : Int
  Title : String
  Type' : String
  Priority : String
  Status : String
  CachedAt : Nat
deriving DecidableEq, Repr

end storage

/-- Observable state of the SQLite file behind one store handle: which
tables and indexes exist, the rows of the three tables (in rowid order,
i.e. insertion order), and the next value of the `issue_cache`
AUTOINCREMENT counter. -/
structure DBFile where
  tables : List String
  indexes : List String
  projects : List storage.Project
  worktrees : List storage.Worktree
  issue_cache : List storage.IssueCache
  next_cache_id : Nat
deriving DecidableEq, Repr

/-- SQLite `CREATE TABLE` (optionally `IF NOT EXISTS`): without the guard
the statement errors when the table exists; with it the statement is a
no-op that touches neither the table list nor any rows. -/
def createTable (ifNotExists : Bool) (name : String) (s : DBFile) :
    Except SqlError DBFile :=
  if name ∈ s.tables then
    if ifNotExists then .ok s else .error (.TableExists name)
  else
    .ok { s with tables := s.tables ++ [name] }

/-- SQLite `CREATE INDEX` (optionally `IF NOT EXISTS`), analogous to
`createTable`. -/
def createIndex (ifNotExists : Bool) (name : String) (s : DBFile) :
    Except SqlError DBFile :=
  if name ∈ s.indexes then
    if ifNotExists then .ok s else .error (.IndexExists name)
  else
    .ok { s with indexes := s.indexes ++ [name] }

/-- `(*Database).initSchema` of db.go: one script of six
`CREATE ... IF NOT EXISTS` statements, executed in source order. -/
def initSchema (s : DBFile) : Except SqlError DBFile := do
  let s ← createTable true "projects" s
  let s ← createTable true "worktrees" s
  let s ← createIndex true "idx_worktrees_project_id" s
  let s ← createIndex true "idx_worktrees_issue_number" s
  let s ← createTable true "issue_cache" s
  let s ← createIndex true "idx_issue_cache_project" s
  return s

/-- `(*Database).CreateProject` of db.go: a single `INSERT INTO projects`
listing only the seven caller-supplied columns; `created_at` and
`updated_at` come from their `DEFAULT CURRENT_TIMESTAMP` clauses (the
`now` argument here).  The `id TEXT PRIMARY KEY` constraint makes the
insert fail on a duplicate identifier, and the error goes back to the
caller untranslated. -/
def CreateProject (p : storage.Project) (now : Nat) (s : DBFile) :
    Except SqlError DBFile :=
  if s.projects.any (fun r => decide (r.ID = p.ID)) then
    .error (.ConstraintUnique "projects.id")
  else
    .ok { s with projects := s.projects ++
      [{ ID := p.ID, Name := p.Name, GitHubOwner := p.GitHubOwner,
         GitHubRepo := p.GitHubRepo, LocalPath := p.LocalPath,
         WorktreeDir := p.WorktreeDir, Config := p.Config,
         CreatedAt := now, UpdatedAt := now }] }

/-- The row the `CreateProject` INSERT produces for input `p` at
statement time `now`: the seven listed columns from the caller, the two
timestamp columns from their defaults. -/
def insertedRow (p : storage.Project) (now : Nat) : storage.Project :=
  { ID := p.ID, Name := p.Name, GitHubOwner := p.GitHubOwner,
    GitHubRepo := p.GitHubRepo, LocalPath := p.LocalPath,
    WorktreeDir := p.WorktreeDir, Config := p.Config,
    CreatedAt := now, UpdatedAt := now }

/-- The state after a successful `CreateProject`. -/
def insertedState (p : storage.Project) (now : Nat) (s : DBFile) : DBFile :=
  { s with projects := s.projects ++ [insertedRow p now] }

/-- `(*Database).GetProject` of db.go: `SELECT ... WHERE id = ?` through
`QueryRow`/`Scan`, which yields the first matching row or `sql.ErrNoRows`
when there is none. -/
def GetProject (id : String) (s : DBFile) :
    Except SqlError storage.Project :=
  match s.projects.find? (fun r => decide (r.ID = id)) with
  | some r => .ok r
  | none => .error .ErrNoRows

/-- `(*Database).ListProjects` of db.go: `SELECT ... ORDER BY name`.
SQLite's default BINARY collation orders text by its UTF-8 bytes, which on
valid Unicode agrees with Lean's code-point order on `String`.  An empty
table yields an empty list, not an error. -/
def ListProjects (s : DBFile) : Except SqlError (List storage.Project) :=
  .ok (s.projects.mergeSort (fun a b => decide (a.Name ≤ b.Name)))

/-- `(*Database).DeleteProject` of db.go: `DELETE FROM projects WHERE
id = ?`.  A `DELETE` that matches no row is not an error, and no other
table is mentioned (the schema declares no `ON DELETE` action). -/
def DeleteProject (id : String) (s : DBFile) : Except SqlError DBFile :=
  .ok { s with projects := s.projects.filter (fun r => decide (r.ID ≠ id)) }

/-- The on-conflict branch of the issue-cache upsert, applied to one row:
a row carrying the conflicting (project, issue-number) key has its
non-key fields and cached-at overwritten by the new values; every other
row is left alone. -/
def refreshRow (c : storage.IssueCache) (now : Nat)
    (r : storage.IssueCache) : storage.IssueCache :=
  if r.ProjectID = c.ProjectID ∧ r.IssueNumber = c.IssueNumber then
    { r with Title := c.Title, Type' := c.Type', Priority := c.Priority,
             Status := c.Status, CachedAt := now }
  else r

/-- Modelled from the spec: the IssueCache create/refresh operation
(`CacheIssue`) is not among the provided source files — only its schema
(`UNIQUE(project_id, issue_number)` in `initSchema`) and its callers are.
Per the spec it is "a single upsert statement: write succeeds whether or
not a row for (project, issue number) already exists; on conflict, all
non-key fields and the cached-at timestamp are overwritten by the new
values", i.e. the existing row is replaced in place, keyed on the
composite uniqueness constraint.  A fresh row takes the next surrogate
identifier from the AUTOINCREMENT counter. -/
def CacheIssue (c : storage.IssueCache) (now : Nat) (s : DBFile) :
    Except SqlError DBFile :=
  if s.issue_cache.any (fun r =>
      decide (r.ProjectID = c.ProjectID ∧ r.IssueNumber = c.IssueNumber)) then
    .ok { s with issue_cache := s.issue_cache.map (refreshRow c now) }
  else
    .ok { s with
      issue_cache := s.issue_cache ++
        [{ c with ID := s.next_cache_id, CachedAt := now }],
      next_cache_id := s.next_cache_id + 1 }

/-- Modelled from the spec: `CreateWorktree` is not among the provided
source files (only its callers are).  Per the spec it "mirrors the Project
Store's CRUD shape": a plain insert that fails on a duplicate worktree
identifier (the `id TEXT PRIMARY KEY` constraint) and otherwise appends
one row, with `created_at` from its default clause. -/
def CreateWorktree (w : storage.Worktree) (now : Nat) (s : DBFile) :
    Except SqlError DBFile :=
  if s.worktrees.any (fun r => decide (r.ID = w.ID)) then
    .error (.ConstraintUnique "worktrees.id")
  else
    .ok { s with worktrees := s.worktrees ++ [{ w with CreatedAt := now }] }

/-- The state-changing operations of the store layer.  Reads (`Get`,
`List`) do not change the state and are omitted. -/
inductive Op where
  | createProject (p : storage.Project) (now : Nat)
  | deleteProject (id : String)
  | createWorktree (w : storage.Worktree) (now : Nat)
  | cacheIssue (c : storage.IssueCache) (now : Nat)
  | initSchema
deriving DecidableEq, Repr

/-- The state after a fallible operation: the new state on success, the
old state when the statement failed (each operation is one auto-committed
statement, so a failed statement leaves the file untouched). -/
def runOr {ε : Type} (s : DBFile) : Except ε DBFile → DBFile
  | .ok s' => s'
  | .error _ => s

/-- One operation applied to the file state. -/
def applyOp (s : DBFile) (op : Op) : DBFile :=
  match op with
  | .createProject p now => runOr s (CreateProject p now s)
  | .deleteProject id => runOr s (DeleteProject id s)
  | .createWorktree w now => runOr s (CreateWorktree w now s)
  | .cacheIssue c now => runOr s (CacheIssue c now s)
  | .initSchema => runOr s (initSchema s)

/-- A fresh SQLite file: no schema objects, no rows; AUTOINCREMENT
counters start at 1. -/
def emptyFile : DBFile :=
  { tables := [], indexes := [], projects := [], worktrees := [],
    issue_cache := [], next_cache_id := 1 }

/-- The state of a freshly constructed store: `New`/`NewWithDBPath` run
`initSchema` once on the fresh file. -/
def initState : DBFile := runOr emptyFile (initSchema emptyFile)

/-- States reachable from a freshly initialized store by some sequence of
store operations. -/
def Reachable (s : DBFile) : Prop :=
  ∃ ops : List Op, s = ops.foldl applyOp initState

namespace project

/-- `project.IssueType` of types.go. -/
structure IssueType where
  Name : String
  Label : String
  Priority : List String
  BranchPrefix : String
  Template : String
  GuidesDir : String
deriving DecidableEq, Repr

/-- `project.BranchConfig` of types.go. -/
structure BranchConfig where
  Pattern : String
  MaxSlugLength : Int
deriving DecidableEq, Repr

/-- `project.OpenCodeConfig` of types.go. -/
structure OpenCodeConfig where
  Enabled : Bool
  AutoLaunch : Bool
  ContextFile : String
  ContextTemplate : String
deriving DecidableEq, Repr

/-- `project.ProjectConfig` of types.go: the richly-typed configuration
that the storage layer only ever sees serialized. -/
structure ProjectConfig where
  IssueTypes : List IssueType
  BranchConfig : BranchConfig
  OpenCode : OpenCodeConfig
deriving DecidableEq, Repr

/-- `project.Project` of types.go: the domain model handled by the
manager, with the structured configuration. -/
structure Project where
  ID : String
  Name : String
  GitHubOwner : String
  GitHubRepo : String
  LocalPath : String
  WorktreeDir : String
  Config : ProjectConfig
  CreatedAt : Nat
  UpdatedAt : Nat
deriving DecidableEq, Repr

/-- One lowercase hexadecimal digit, as Go's JSON encoder prints them. -/
def hexDigit (n : Nat) : String :=
  String.singleton (if n < 10 then Char.ofNat (48 + n) else Char.ofNat (87 + n))

/-- Go `encoding/json` string-character escaping: quote and backslash are
backslash-escaped, newline/carriage-return/tab get their short forms,
other control characters become \u00xx, and the HTML-unsafe characters
`<`, `>`, `&` are escaped because `json.Marshal` HTML-escapes by
default. -/
def jsonEscapeChar (c : Char) : String :=
  if c = Char.ofNat 34 then "\\\""
  else if c = Char.ofNat 92 then "\\\\"
  else if c = Char.ofNat 10 then "\\n"
  else if c = Char.ofNat 13 then "\\r"
  else if c = Char.ofNat 9 then "\\t"
  else if c = Char.ofNat 60 then "\\u003c"
  else if c = Char.ofNat 62 then "\\u003e"
  else if c = Char.ofNat 38 then "\\u0026"
  else if c.toNat < 32 then
    "\\u00" ++ hexDigit (c.toNat / 16) ++ hexDigit (c.toNat % 16)
  else String.singleton c

/-- A Go JSON string literal. -/
def jsonQuote (s : String) : String :=
  "\"" ++ String.join (s.toList.map jsonEscapeChar) ++ "\""

/-- A Go JSON array of strings.  (Lean's `List` does not distinguish Go's
nil slice, which `json.Marshal` prints as `null`, from an empty one; the
claims never look inside the serialized blob, so the distinction is
immaterial here.) -/
def jsonStringArray (l : List String) : String :=
  "[" ++ String.intercalate "," (l.map jsonQuote) ++ "]"

/-- `json.Marshal` of one `IssueType`, fields in struct order with their
json tags. -/
def marshalIssueType (t : IssueType) : String :=
  "\x7b\"name\":" ++ jsonQuote t.Name
    ++ ",\"label\":" ++ jsonQuote t.Label
    ++ ",\"priority\":" ++ jsonStringArray t.Priority
    ++ ",\"branch_prefix\":" ++ jsonQuote t.BranchPrefix
    ++ ",\"template\":" ++ jsonQuote t.Template
    ++ ",\"guides_dir\":" ++ jsonQuote t.GuidesDir ++ "\x7d"

/-- `json.Marshal` of a `BranchConfig`. -/
def marshalBranchConfig (b : BranchConfig) : String :=
  "\x7b\"pattern\":" ++ jsonQuote b.Pattern
    ++ ",\"max_slug_length\":" ++ toString b.MaxSlugLength ++ "\x7d"

/-- `json.Marshal` of an `OpenCodeConfig`. -/
def marshalOpenCodeConfig (o : OpenCodeConfig) : String :=
  "\x7b\"enabled\":" ++ (if o.Enabled then "true" else "false")
    ++ ",\"auto_launch\":" ++ (if o.AutoLaunch then "true" else "false")
    ++ ",\"context_file\":" ++ jsonQuote o.ContextFile
    ++ ",\"context_template\":" ++ jsonQuote o.ContextTemplate ++ "\x7d"

/-- `json.Marshal(p.Config)` as performed inside `Manager.Add`.  For this
type (strings, bools, ints, slices — no channels, funcs, cycles or
unsupported values) Go's marshaller cannot fail, so the `err != nil`
branch of `Add` is dead code and the model is total. -/
def marshalProjectConfig (c : ProjectConfig) : String :=
  "\x7b\"issue_types\":"
    ++ ("[" ++ String.intercalate "," (c.IssueTypes.map marshalIssueType) ++ "]")
    ++ ",\"branch_config\":" ++ marshalBranchConfig c.BranchConfig
    ++ ",\"opencode\":" ++ marshalOpenCodeConfig c.OpenCode ++ "\x7d"

/-- The `storage.Project` value `Manager.Add` builds before calling
`CreateProject`: the six identity/path fields copied over, the config
serialized; `CreatedAt`/`UpdatedAt` are left at their zero value (the
INSERT never reads them). -/
def toStorageProject (p : Project) : storage.Project :=
  { ID := p.ID, Name := p.Name, GitHubOwner := p.GitHubOwner,
    GitHubRepo := p.GitHubRepo, LocalPath := p.LocalPath,
    WorktreeDir := p.WorktreeDir, Config := marshalProjectConfig p.Config,
    CreatedAt := 0, UpdatedAt := 0 }

/-- Errors out of the manager layer: its own validation messages
(`fmt.Errorf` strings) or a store error passed through unchanged. -/
inductive AddError where
  | validation (msg : String)
  | store (e : SqlError)
deriving DecidableEq, Repr

/-- `(*Manager).Add` of manager.go: four required-field checks in source
order, then marshal the config (total here, see `marshalProjectConfig`)
and hand the flat row to `CreateProject`.  `LocalPath` and `WorktreeDir`
are never checked. -/
def Add (p : Project) (now : Nat) (s : DBFile) : Except AddError DBFile :=
  if p.ID = "" then .error (.validation "project ID is required")
  else if p.Name = "" then .error (.validation "project name is required")
  else if p.GitHubOwner = "" then .error (.validation "GitHub owner is required")
  else if p.GitHubRepo = "" then .error (.validation "GitHub repo is required")
  else (CreateProject (toStorageProject p) now s).mapError AddError.store

end project

/-! ## Sample data for concrete witnesses -/

/-- A sample stored project row. -/
def demoRow : storage.Project :=
  { ID := "p1", Name := "Demo", GitHubOwner := "o", GitHubRepo := "r",
    LocalPath := "/a", WorktreeDir := "/b", Config := "[]",
    CreatedAt := 3, UpdatedAt := 3 }

/-- A sample caller-side project value (timestamps at their zero value,
as `Manager.Add` leaves them). -/
def demoInput : storage.Project :=
  { ID := "p1", Name := "Demo", GitHubOwner := "o", GitHubRepo := "r",
    LocalPath := "/a", WorktreeDir := "/b", Config := "[]",
    CreatedAt := 0, UpdatedAt := 0 }

/-- A second project value reusing the identifier `p1`. -/
def dupInput : storage.Project :=
  { ID := "p1", Name := "Other", GitHubOwner := "x", GitHubRepo := "y",
    LocalPath := "", WorktreeDir := "", Config := "",
    CreatedAt := 0, UpdatedAt := 0 }

/-- A sample worktree row owned by `p1`. -/
def demoWorktree : storage.Worktree :=
  { ID := "w1", ProjectID := "p1", IssueNumber := 42, Path := "/w",
    Branch := "f", Status := "active", CreatedAt := 4 }

/-- A sample cached issue owned by `p1`. -/
def demoIssue : storage.IssueCache :=
  { ID := 1, ProjectID := "p1", IssueNumber := 42, Title := "Fix bug",
    Type' := "", Priority := "", Status := "", CachedAt := 5 }

/-- A refreshed cache entry for the same (project, issue-number) pair as
`demoIssue`, carrying new non-key values. -/
def demoIssue2 : storage.IssueCache :=
  { ID := 0, ProjectID := "p1", IssueNumber := 42, Title := "Fix bug v2",
    Type' := "bug", Priority := "high", Status := "open", CachedAt := 0 }

/-- A sample structured configuration. -/
def demoDomainConfig : project.ProjectConfig :=
  { IssueTypes := [],
    BranchConfig := { Pattern := "x", MaxSlugLength := 50 },
    OpenCode := { Enabled := true, AutoLaunch := false,
                  ContextFile := ".ctx", ContextTemplate := "" } }

/-- A domain project whose four required fields are populated but whose
`LocalPath` and `WorktreeDir` are empty. -/
def demoDomainProject : project.Project :=
  { ID := "p1", Name := "Demo", GitHubOwner := "o", GitHubRepo := "r",
    LocalPath := "", WorktreeDir := "", Config := demoDomainConfig,
    CreatedAt := 0, UpdatedAt := 0 }

/-- The same domain project with an empty identifier. -/
def demoInvalidProject : project.Project :=
  { demoDomainProject with ID := "" }

/-- A sample populated file: one project, one worktree, one cached
issue. -/
def demoFile : DBFile :=
  { tables := [], indexes := [], projects := [demoRow],
    worktrees := [demoWorktree], issue_cache := [demoIssue],
    next_cache_id := 2 }

/-! ## Helper lemmas -/

theorem find?_append_none {α : Type} (p : α → Bool) {l₁ : List α}
    (l₂ : List α) (h : l₁.find? p = none) :
    (l₁ ++ l₂).find? p = l₂.find? p := by
  simp [List.find?_append, h]

theorem any_eq_false_of_forall_ne (s : DBFile) (i : String)
    (h : ∀ r ∈ s.projects, r.ID ≠ i) :
    (s.projects.any (fun r => decide (r.ID = i))) = false := by
  simp only [List.any_eq_false, decide_eq_true_eq]
  exact h

theorem getProject_eq_ok {i : String} {s : DBFile} {r : storage.Project}
    (h : s.projects.find? (fun x => decide (x.ID = i)) = some r) :
    GetProject i s = .ok r := by
  unfold GetProject
  rw [h]

theorem getProject_eq_none {i : String} {s : DBFile}
    (h : s.projects.find? (fun x => decide (x.ID = i)) = none) :
    GetProject i s = .error .ErrNoRows := by
  unfold GetProject
  rw [h]

theorem createProject_ok (p : storage.Project) (now : Nat) (s : DBFile)
    (hany : (s.projects.any (fun r => decide (r.ID = p.ID))) = false) :
    CreateProject p now s = .ok (insertedState p now s) := by
  unfold CreateProject insertedState insertedRow
  rw [hany]
  exact rfl

/-! ## Claim theorems -/

/-- C1.  Creating a project whose identifier is not yet present succeeds,
and a subsequent `GetProject` with that identifier returns a row whose
seven caller-supplied fields equal the values written and whose two
timestamps are the (positive, hence non-zero) statement time.  This holds
for every `storage.Project` value, in particular every valid one. -/
theorem createProject_getProject_roundtrip (p : storage.Project)
    (now : Nat) (s : DBFile)
    (hfresh : ∀ r ∈ s.projects, r.ID ≠ p.ID) (hnow : 0 < now) :
    ∃ s' r, CreateProject p now s = .ok s' ∧ GetProject p.ID s' = .ok r ∧
      r.ID = p.ID ∧ r.Name = p.Name ∧ r.GitHubOwner = p.GitHubOwner ∧
      r.GitHubRepo = p.GitHubRepo ∧ r.LocalPath = p.LocalPath ∧
      r.WorktreeDir = p.WorktreeDir ∧ r.Config = p.Config ∧
      r.CreatedAt = now ∧ r.UpdatedAt = now ∧
      r.CreatedAt ≠ 0 ∧ r.UpdatedAt ≠ 0 := by
  have hany := any_eq_false_of_forall_ne s p.ID hfresh
  have hnone : s.projects.find? (fun r => decide (r.ID = p.ID)) = none := by
    rw [List.find?_eq_none]
    intro r hr
    simpa using hfresh r hr
  refine ⟨insertedState p now s, insertedRow p now,
    createProject_ok p now s hany, ?_, rfl, rfl, rfl, rfl, rfl, rfl, rfl,
    rfl, rfl, Nat.pos_iff_ne_zero.mp hnow, Nat.pos_iff_ne_zero.mp hnow⟩
  apply getProject_eq_ok
  show List.find? _ (s.projects ++ [insertedRow p now]) = _
  rw [find?_append_none _ _ hnone]
  simp [List.find?_singleton, insertedRow]

/-- C1 witness: the round trip evaluated at a concrete project against
the freshly initialized store. -/
theorem createProject_getProject_roundtrip_witness :
    ∃ s' r, CreateProject demoInput 7 initState = .ok s' ∧
      GetProject demoInput.ID s' = .ok r ∧
      r.ID = demoInput.ID ∧ r.Name = demoInput.Name ∧
      r.GitHubOwner = demoInput.GitHubOwner ∧
      r.GitHubRepo = demoInput.GitHubRepo ∧
      r.LocalPath = demoInput.LocalPath ∧
      r.WorktreeDir = demoInput.WorktreeDir ∧
      r.Config = demoInput.Config ∧
      r.CreatedAt = 7 ∧ r.UpdatedAt = 7 ∧
      r.CreatedAt ≠ 0 ∧ r.UpdatedAt ≠ 0 :=
  createProject_getProject_roundtrip demoInput 7 initState
    (by decide) (by decide)

theorem refreshRow_key (c : storage.IssueCache) (now : Nat)
    (r : storage.IssueCache) :
    (refreshRow c now r).ProjectID = r.ProjectID ∧
    (refreshRow c now r).IssueNumber = r.IssueNumber := by
  unfold refreshRow
  split <;> exact ⟨rfl, rfl⟩

/-- C2.  The issue-cache upsert succeeds whether or not a row for the
(project, issue-number) pair exists; afterwards exactly one row carries
that pair, and every row carrying it has the non-key fields (title, type,
priority, status) and the cached-at timestamp of this latest write.  (The
hypothesis is the table's own uniqueness invariant: at most one row per
pair beforehand.)  Instantiating the theorem twice — first write, then a
second write for the same pair — gives exactly the spec's scenario: one
row, carrying the second write's values. -/
theorem cacheIssue_upsert (c : storage.IssueCache) (now : Nat) (s : DBFile)
    (hinv : (s.issue_cache.filter (fun r =>
      decide (r.ProjectID = c.ProjectID ∧
        r.IssueNumber = c.IssueNumber))).length ≤ 1) :
    ∃ s', CacheIssue c now s = .ok s' ∧
      (s'.issue_cache.filter (fun r =>
        decide (r.ProjectID = c.ProjectID ∧
          r.IssueNumber = c.IssueNumber))).length = 1 ∧
      ∀ r ∈ s'.issue_cache,
        r.ProjectID = c.ProjectID → r.IssueNumber = c.IssueNumber →
          r.Title = c.Title ∧ r.Type' = c.Type' ∧ r.Priority = c.Priority ∧
          r.Status = c.Status ∧ r.CachedAt = now := by
  by_cases hex : ∃ r ∈ s.issue_cache,
      r.ProjectID = c.ProjectID ∧ r.IssueNumber = c.IssueNumber
  · have hany : (s.issue_cache.any (fun r =>
        decide (r.ProjectID = c.ProjectID ∧
          r.IssueNumber = c.IssueNumber))) = true := by
      simp only [List.any_eq_true, decide_eq_true_eq]
      exact hex
    refine ⟨_, by unfold CacheIssue; rw [hany]; exact rfl, ?_, ?_⟩
    · show (List.filter _ (s.issue_cache.map (refreshRow c now))).length = 1
      rw [← List.countP_eq_length_filter, List.countP_map]
      have hcong : List.countP ((fun r => decide (r.ProjectID = c.ProjectID ∧
            r.IssueNumber = c.IssueNumber)) ∘ refreshRow c now)
            s.issue_cache =
          List.countP (fun r => decide (r.ProjectID = c.ProjectID ∧
            r.IssueNumber = c.IssueNumber)) s.issue_cache := by
        refine List.countP_congr ?_
        intro r hr
        obtain ⟨k1, k2⟩ := refreshRow_key c now r
        simp [Function.comp, k1, k2]
      rw [hcong, List.countP_eq_length_filter]
      refine le_antisymm hinv ?_
      rw [← List.countP_eq_length_filter]
      refine Nat.succ_le_of_lt ?_
      rw [List.countP_pos_iff]
      simpa using hex
    · intro r hr h1 h2
      obtain ⟨r₀, hr₀, rfl⟩ := List.mem_map.mp hr
      by_cases h₀ : r₀.ProjectID = c.ProjectID ∧ r₀.IssueNumber = c.IssueNumber
      · simp [refreshRow, h₀]
      · obtain ⟨k1, k2⟩ := refreshRow_key c now r₀
        rw [k1] at h1
        rw [k2] at h2
        exact absurd ⟨h1, h2⟩ h₀
  · have hall : ∀ r ∈ s.issue_cache,
        ¬(r.ProjectID = c.ProjectID ∧ r.IssueNumber = c.IssueNumber) := by
      intro r hr hk
      exact hex ⟨r, hr, hk⟩
    have hany : (s.issue_cache.any (fun r =>
        decide (r.ProjectID = c.ProjectID ∧
          r.IssueNumber = c.IssueNumber))) = false := by
      simp only [List.any_eq_false, decide_eq_true_eq]
      exact hall
    refine ⟨_, by unfold CacheIssue; rw [hany]; exact rfl, ?_, ?_⟩
    · show (List.filter _ (s.issue_cache ++
        [{ c with ID := s.next_cache_id, CachedAt := now }])).length = 1
      rw [List.filter_append]
      have h0 : List.filter (fun r =>
          decide (r.ProjectID = c.ProjectID ∧
            r.IssueNumber = c.IssueNumber)) s.issue_cache = [] :=
        List.filter_eq_nil_iff.mpr (fun r hr => by simpa using hall r hr)
      rw [h0]
      simp
    · intro r hr h1 h2
      rcases List.mem_append.mp hr with h | h
      · exact absurd ⟨h1, h2⟩ (hall r h)
      · rw [List.mem_singleton.mp h]
        exact ⟨rfl, rfl, rfl, rfl, rfl⟩

/-- C2 witness: refreshing the already-cached (p1, 42) entry with new
values, evaluated on the concrete populated store. -/
theorem cacheIssue_upsert_witness :
    ∃ s', CacheIssue demoIssue2 11 demoFile = .ok s' ∧
      (s'.issue_cache.filter (fun r =>
        decide (r.ProjectID = demoIssue2.ProjectID ∧
          r.IssueNumber = demoIssue2.IssueNumber))).length = 1 ∧
      ∀ r ∈ s'.issue_cache,
        r.ProjectID = demoIssue2.ProjectID →
          r.IssueNumber = demoIssue2.IssueNumber →
          r.Title = demoIssue2.Title ∧ r.Type' = demoIssue2.Type' ∧
          r.Priority = demoIssue2.Priority ∧ r.Status = demoIssue2.Status ∧
          r.CachedAt = 11 :=
  cacheIssue_upsert demoIssue2 11 demoFile (by decide)

theorem createTable_true_ok (n : String) (s : DBFile) :
    ∃ s', createTable true n s = .ok s' ∧ s'.projects = s.projects ∧
      s'.worktrees = s.worktrees ∧ s'.issue_cache = s.issue_cache ∧
      s'.next_cache_id = s.next_cache_id := by
  unfold createTable
  by_cases h : n ∈ s.tables
  · rw [if_pos h]
    exact ⟨s, rfl, rfl, rfl, rfl, rfl⟩
  · rw [if_neg h]
    exact ⟨_, rfl, rfl, rfl, rfl, rfl⟩

theorem createIndex_true_ok (n : String) (s : DBFile) :
    ∃ s', createIndex true n s = .ok s' ∧ s'.projects = s.projects ∧
      s'.worktrees = s.worktrees ∧ s'.issue_cache = s.issue_cache ∧
      s'.next_cache_id = s.next_cache_id := by
  unfold createIndex
  by_cases h : n ∈ s.indexes
  · rw [if_pos h]
    exact ⟨s, rfl, rfl, rfl, rfl, rfl⟩
  · rw [if_neg h]
    exact ⟨_, rfl, rfl, rfl, rfl, rfl⟩

/-- `initSchema` never fails and never touches any row of any table. -/
theorem initSchema_rows (s : DBFile) :
    ∃ s', initSchema s = .ok s' ∧ s'.projects = s.projects ∧
      s'.worktrees = s.worktrees ∧ s'.issue_cache = s.issue_cache ∧
      s'.next_cache_id = s.next_cache_id := by
  obtain ⟨s1, h1, hp1, hw1, hc1, hn1⟩ := createTable_true_ok "projects" s
  obtain ⟨s2, h2, hp2, hw2, hc2, hn2⟩ := createTable_true_ok "worktrees" s1
  obtain ⟨s3, h3, hp3, hw3, hc3, hn3⟩ :=
    createIndex_true_ok "idx_worktrees_project_id" s2
  obtain ⟨s4, h4, hp4, hw4, hc4, hn4⟩ :=
    createIndex_true_ok "idx_worktrees_issue_number" s3
  obtain ⟨s5, h5, hp5, hw5, hc5, hn5⟩ := createTable_true_ok "issue_cache" s4
  obtain ⟨s6, h6, hp6, hw6, hc6, hn6⟩ :=
    createIndex_true_ok "idx_issue_cache_project" s5
  refine ⟨s6, ?_,
    by rw [hp6, hp5, hp4, hp3, hp2, hp1],
    by rw [hw6, hw5, hw4, hw3, hw2, hw1],
    by rw [hc6, hc5, hc4, hc3, hc2, hc1],
    by rw [hn6, hn5, hn4, hn3, hn2, hn1]⟩
  rw [initSchema, h1]
  show createTable true "worktrees" s1 >>= _ = _
  rw [h2]
  show createIndex true "idx_worktrees_project_id" s2 >>= _ = _
  rw [h3]
  show createIndex true "idx_worktrees_issue_number" s3 >>= _ = _
  rw [h4]
  show createTable true "issue_cache" s4 >>= _ = _
  rw [h5]
  show createIndex true "idx_issue_cache_project" s5 >>= _ = _
  rw [h6]
  exact rfl

theorem createWorktree_projects (w : storage.Worktree) (now : Nat)
    (s : DBFile) :
    (runOr s (CreateWorktree w now s)).projects = s.projects := by
  unfold CreateWorktree
  by_cases hany : (s.worktrees.any (fun r => decide (r.ID = w.ID))) = true
  · rw [hany]
    exact rfl
  · rw [Bool.not_eq_true] at hany
    rw [hany]
    exact rfl

theorem cacheIssue_projects (c : storage.IssueCache) (now : Nat)
    (s : DBFile) :
    (runOr s (CacheIssue c now s)).projects = s.projects := by
  unfold CacheIssue
  by_cases hany : (s.issue_cache.any (fun r =>
      decide (r.ProjectID = c.ProjectID ∧
        r.IssueNumber = c.IssueNumber))) = true
  · rw [hany]
    exact rfl
  · rw [Bool.not_eq_true] at hany
    rw [hany]
    exact rfl

/-- Every single operation preserves distinctness of project
identifiers. -/
theorem nodup_preserved (s : DBFile) (op : Op)
    (h : (s.projects.map storage.Project.ID).Nodup) :
    ((applyOp s op).projects.map storage.Project.ID).Nodup := by
  cases op with
  | createProject p now =>
    by_cases hany : (s.projects.any (fun x => decide (x.ID = p.ID))) = true
    · show ((runOr s (CreateProject p now s)).projects.map _).Nodup
      unfold CreateProject
      rw [hany]
      exact h
    · rw [Bool.not_eq_true] at hany
      have hall : ∀ r ∈ s.projects, r.ID ≠ p.ID := by
        simpa only [List.any_eq_false, decide_eq_true_eq] using hany
      show ((runOr s (CreateProject p now s)).projects.map _).Nodup
      rw [createProject_ok p now s hany]
      show ((s.projects ++ [insertedRow p now]).map storage.Project.ID).Nodup
      rw [List.map_append, List.nodup_append]
      refine ⟨h, by simp, ?_⟩
      intro a ha hb
      simp only [insertedRow, List.map_cons, List.map_nil,
        List.mem_singleton] at hb
      obtain ⟨r, hr, hra⟩ := List.mem_map.mp ha
      exact hall r hr (hra.trans hb)
  | deleteProject i =>
    show (((s.projects.filter (fun r => decide (r.ID ≠ i))).map
      storage.Project.ID)).Nodup
    exact List.Nodup.sublist (List.Sublist.map _ (List.filter_sublist _)) h
  | createWorktree w now =>
    show ((runOr s (CreateWorktree w now s)).projects.map _).Nodup
    rw [createWorktree_projects w now s]
    exact h
  | cacheIssue c now =>
    show ((runOr s (CacheIssue c now s)).projects.map _).Nodup
    rw [cacheIssue_projects c now s]
    exact h
  | initSchema =>
    obtain ⟨s', hs', hp, _, _, _⟩ := initSchema_rows s
    show ((runOr s (initSchema s)).projects.map _).Nodup
    rw [hs']
    show ((s'.projects).map _).Nodup
    rw [hp]
    exact h

/-- No operation other than `deleteProject` removes or alters an existing
project row. -/
theorem mem_projects_applyOp (s : DBFile) (op : Op) (r : storage.Project)
    (hop : ∀ i, op ≠ Op.deleteProject i) (hr : r ∈ s.projects) :
    r ∈ (applyOp s op).projects := by
  cases op with
  | createProject p now =>
    by_cases hany : (s.projects.any (fun x => decide (x.ID = p.ID))) = true
    · show r ∈ (runOr s (CreateProject p now s)).projects
      unfold CreateProject
      rw [hany]
      exact hr
    · rw [Bool.not_eq_true] at hany
      show r ∈ (runOr s (CreateProject p now s)).projects
      rw [createProject_ok p now s hany]
      exact List.mem_append_left _ hr
  | deleteProject i => exact absurd rfl (hop i)
  | createWorktree w now =>
    show r ∈ (runOr s (CreateWorktree w now s)).projects
    rw [createWorktree_projects w now s]
    exact hr
  | cacheIssue c now =>
    show r ∈ (runOr s (CacheIssue c now s)).projects
    rw [cacheIssue_projects c now s]
    exact hr
  | initSchema =>
    obtain ⟨s', hs', hp, _, _, _⟩ := initSchema_rows s
    show r ∈ (runOr s (initSchema s)).projects
    rw [hs']
    show r ∈ s'.projects
    rw [hp]
    exact hr

theorem nodup_foldl (ops : List Op) :
    ∀ s : DBFile, (s.projects.map storage.Project.ID).Nodup →
      ((ops.foldl applyOp s).projects.map storage.Project.ID).Nodup := by
  induction ops with
  | nil => exact fun s h => h
  | cons op ops ih => exact fun s h => ih _ (nodup_preserved s op h)

/-- C3.  In every state reachable by any sequence of store operations
from a freshly initialized store, project identifiers are pairwise
distinct; and a project row, once present, is contained unchanged in the
state after any operation other than `DeleteProject` — no operation
updates a row (there is no update operation). -/
theorem projects_unique_and_immutable :
    (∀ s : DBFile, Reachable s →
      (s.projects.map storage.Project.ID).Nodup) ∧
    (∀ (s : DBFile) (op : Op) (r : storage.Project),
      (∀ i, op ≠ Op.deleteProject i) → r ∈ s.projects →
        r ∈ (applyOp s op).projects) := by
  constructor
  · rintro s ⟨ops, rfl⟩
    exact nodup_foldl ops initState (by decide)
  · exact mem_projects_applyOp

/-- C3 witness: identifier distinctness evaluated on a concrete reachable
state, and row immutability evaluated for a concrete row under a concrete
non-delete operation. -/
theorem projects_unique_and_immutable_witness :
    (([Op.createProject demoInput 7].foldl applyOp initState).projects.map
      storage.Project.ID).Nodup ∧
    demoRow ∈ (applyOp demoFile (Op.cacheIssue demoIssue2 11)).projects :=
  ⟨projects_unique_and_immutable.1 _ ⟨[Op.createProject demoInput 7], rfl⟩,
   projects_unique_and_immutable.2 demoFile (Op.cacheIssue demoIssue2 11)
     demoRow (fun i h => Op.noConfusion h) (by decide)⟩

/-- C4.  Creating a project whose identifier already exists fails with the
engine's uniqueness-violation error (no custom error type), and the failed
statement leaves the whole file state — in particular the pre-existing
row — unchanged. -/
theorem createProject_duplicate_fails (p : storage.Project) (now : Nat)
    (s : DBFile) (hdup : ∃ r ∈ s.projects, r.ID = p.ID) :
    CreateProject p now s = .error (SqlError.ConstraintUnique "projects.id") ∧
    applyOp s (Op.createProject p now) = s := by
  have hany : (s.projects.any (fun r => decide (r.ID = p.ID))) = true := by
    simp only [List.any_eq_true, decide_eq_true_eq]
    exact hdup
  constructor
  · unfold CreateProject
    rw [hany]
    exact rfl
  · show runOr s (CreateProject p now s) = s
    unfold CreateProject
    rw [hany]
    exact rfl

/-- C4 witness: a duplicate create evaluated on a concrete one-project
store. -/
theorem createProject_duplicate_fails_witness :
    CreateProject dupInput 9 demoFile =
      .error (SqlError.ConstraintUnique "projects.id") ∧
    applyOp demoFile (Op.createProject dupInput 9) = demoFile :=
  createProject_duplicate_fails dupInput 9 demoFile
    ⟨demoRow, by decide, by decide⟩

/-- C7.  `GetProject` fails exactly when no row carries the requested
identifier, and then with precisely the engine's no-rows error — a value
distinct from every constraint-violation error, so callers can tell the
two kinds apart; when a matching row exists the full stored row (all
columns, timestamps included) is returned. -/
theorem getProject_not_found_iff (i : String) (s : DBFile) :
    (GetProject i s = .error SqlError.ErrNoRows ↔ ∀ r ∈ s.projects, r.ID ≠ i) ∧
    ((∃ r ∈ s.projects, r.ID = i) →
      ∃ r, GetProject i s = .ok r ∧ r ∈ s.projects ∧ r.ID = i) ∧
    (∀ obj, SqlError.ErrNoRows ≠ SqlError.ConstraintUnique obj) := by
  rcases hfind : s.projects.find? (fun x => decide (x.ID = i)) with _ | x
  · have hnone := List.find?_eq_none.mp hfind
    refine ⟨?_, ?_, fun obj h => by cases h⟩
    · rw [getProject_eq_none hfind]
      exact iff_of_true rfl (fun r hr => by simpa using hnone r hr)
    · rintro ⟨r, hr, hid⟩
      exact absurd hid (by simpa using hnone r hr)
  · have hx : x.ID = i := by simpa using List.find?_some hfind
    have hmem := List.mem_of_find?_eq_some hfind
    refine ⟨?_, fun _ => ⟨x, getProject_eq_ok hfind, hmem, hx⟩,
      fun obj h => by cases h⟩
    rw [getProject_eq_ok hfind]
    constructor
    · intro h
      cases h
    · intro hall
      exact absurd hx (hall x hmem)

/-- C7 witness: both directions evaluated on a concrete store, for an
absent identifier. -/
theorem getProject_not_found_iff_witness :
    (GetProject "absent" demoFile = .error SqlError.ErrNoRows ↔
      ∀ r ∈ demoFile.projects, r.ID ≠ "absent") ∧
    ((∃ r ∈ demoFile.projects, r.ID = "absent") →
      ∃ r, GetProject "absent" demoFile = .ok r ∧
        r ∈ demoFile.projects ∧ r.ID = "absent") ∧
    (∀ obj, SqlError.ErrNoRows ≠ SqlError.ConstraintUnique obj) :=
  getProject_not_found_iff "absent" demoFile

/-- C8.  `DeleteProject` always succeeds — deleting an absent identifier
is a no-op rather than an error — and it is idempotent: the state after
deleting twice equals the state after deleting once; when no row matched,
the state is completely unchanged. -/
theorem deleteProject_idempotent (i : String) (s : DBFile) :
    ∃ s', DeleteProject i s = .ok s' ∧ DeleteProject i s' = .ok s' ∧
      ((∀ r ∈ s.projects, r.ID ≠ i) → s' = s) := by
  have hff : (s.projects.filter (fun r => decide (r.ID ≠ i))).filter
        (fun r => decide (r.ID ≠ i)) =
      s.projects.filter (fun r => decide (r.ID ≠ i)) := by
    rw [List.filter_filter]
    simp
  refine ⟨_, rfl, ?_, ?_⟩
  · simp only [DeleteProject, Except.ok.injEq]
    rw [hff]
  · intro h
    have heq : s.projects.filter (fun r => decide (r.ID ≠ i)) = s.projects :=
      List.filter_eq_self.mpr (fun r hr => by simpa using h r hr)
    rw [heq]

/-- C8 witness: double deletion of an absent identifier on a concrete
populated store. -/
theorem deleteProject_idempotent_witness :
    ∃ s', DeleteProject "ghost" demoFile = .ok s' ∧
      DeleteProject "ghost" s' = .ok s' ∧
      ((∀ r ∈ demoFile.projects, r.ID ≠ "ghost") → s' = demoFile) :=
  deleteProject_idempotent "ghost" demoFile

/-- C9.  `DeleteProject` touches only the `projects` table, removing
exactly the rows whose identifier matches: the `worktrees` and
`issue_cache` rows — including rows whose `project_id` references the
deleted project, which are silently orphaned — and the schema objects are
all left unchanged. -/
theorem deleteProject_frame (i : String) (s : DBFile) :
    ∃ s', DeleteProject i s = .ok s' ∧
      s'.worktrees = s.worktrees ∧ s'.issue_cache = s.issue_cache ∧
      s'.tables = s.tables ∧ s'.indexes = s.indexes ∧
      s'.next_cache_id = s.next_cache_id ∧
      s'.projects = s.projects.filter (fun r => decide (r.ID ≠ i)) :=
  ⟨_, rfl, rfl, rfl, rfl, rfl, rfl, rfl⟩

/-- C5.  Running `initSchema` against a connection whose three tables and
three indexes already exist returns no error and leaves the file state —
tables, indexes, and every row — exactly as it was: nothing is
duplicated, dropped, or modified. -/
theorem initSchema_idempotent_on_existing (s : DBFile)
    (ht1 : "projects" ∈ s.tables) (ht2 : "worktrees" ∈ s.tables)
    (ht3 : "issue_cache" ∈ s.tables)
    (hi1 : "idx_worktrees_project_id" ∈ s.indexes)
    (hi2 : "idx_worktrees_issue_number" ∈ s.indexes)
    (hi3 : "idx_issue_cache_project" ∈ s.indexes) :
    initSchema s = .ok s := by
  rw [initSchema, createTable, if_pos ht1]
  show createTable true "worktrees" s >>= _ = _
  rw [createTable, if_pos ht2]
  show createIndex true "idx_worktrees_project_id" s >>= _ = _
  rw [createIndex, if_pos hi1]
  show createIndex true "idx_worktrees_issue_number" s >>= _ = _
  rw [createIndex, if_pos hi2]
  show createTable true "issue_cache" s >>= _ = _
  rw [createTable, if_pos ht3]
  show createIndex true "idx_issue_cache_project" s >>= _ = _
  rw [createIndex, if_pos hi3]
  rfl

/-- C5 witness: re-running the initializer on the freshly initialized
(hence fully created) store state, evaluated concretely. -/
theorem initSchema_idempotent_on_existing_witness :
    initSchema initState = .ok initState :=
  initSchema_idempotent_on_existing initState (by decide) (by decide)
    (by decide) (by decide) (by decide) (by decide)

/-- C6.  `ListProjects` never fails: it returns a permutation of the
project rows (exactly the rows in the store), sorted ascending by the
`name` column under the engine's byte-wise collation (code-point order on
`String` here); on a store with no projects the result is the empty list,
not an error. -/
theorem listProjects_sorted_perm (s : DBFile) :
    ∃ l, ListProjects s = .ok l ∧ l.Perm s.projects ∧
      l.Pairwise (fun a b => a.Name ≤ b.Name) ∧
      (s.projects = [] → l = []) := by
  refine ⟨_, rfl, List.mergeSort_perm s.projects _, ?_, ?_⟩
  · have h := @List.sorted_mergeSort storage.Project
      (fun a b => decide (a.Name ≤ b.Name))
      (fun a b c hab hbc => by
        simp only [decide_eq_true_eq] at *
        exact le_trans hab hbc)
      (fun a b => by
        simp only [Bool.or_eq_true, decide_eq_true_eq]
        exact le_total a.Name b.Name)
      s.projects
    exact h.imp (fun hab => by simpa using hab)
  · intro h
    rw [h]
    exact List.mergeSort_nil

/-- C6 witness: listing evaluated concretely, both on a populated store
and (through the empty-store implication) on the fresh store. -/
theorem listProjects_sorted_perm_witness :
    ∃ l, ListProjects initState = .ok l ∧ l.Perm initState.projects ∧
      l.Pairwise (fun a b => a.Name ≤ b.Name) ∧
      (initState.projects = [] → l = []) :=
  listProjects_sorted_perm initState

/-- C9 witness: the frame condition evaluated on a concrete store holding
a worktree and a cached issue that reference the deleted project. -/
theorem deleteProject_frame_witness :
    ∃ s', DeleteProject "p1" demoFile = .ok s' ∧
      s'.worktrees = demoFile.worktrees ∧
      s'.issue_cache = demoFile.issue_cache ∧
      s'.tables = demoFile.tables ∧ s'.indexes = demoFile.indexes ∧
      s'.next_cache_id = demoFile.next_cache_id ∧
      s'.projects = demoFile.projects.filter (fun r => decide (r.ID ≠ "p1")) :=
  deleteProject_frame "p1" demoFile

/-- C10.  `Manager.Add` rejects a domain project whose `ID`, `Name`,
`GitHubOwner` or `GitHubRepo` is empty with one of its validation errors,
before any store write — the store state is unchanged; when those four
fields are non-empty the call reaches the store layer unconditionally
(`LocalPath` and `WorktreeDir` are never checked, so empty values there
proceed to `CreateProject`). -/
theorem manager_add_validation (p : project.Project) (now : Nat)
    (s : DBFile) :
    ((p.ID = "" ∨ p.Name = "" ∨ p.GitHubOwner = "" ∨ p.GitHubRepo = "") →
      ∃ msg, project.Add p now s =
          .error (project.AddError.validation msg) ∧
        runOr s (project.Add p now s) = s) ∧
    (p.ID ≠ "" → p.Name ≠ "" → p.GitHubOwner ≠ "" → p.GitHubRepo ≠ "" →
      project.Add p now s =
        (CreateProject (project.toStorageProject p) now s).mapError
          project.AddError.store) := by
  unfold project.Add
  split_ifs with h1 h2 h3 h4
  · exact ⟨fun _ => ⟨_, rfl, rfl⟩, fun hn _ _ _ => absurd h1 hn⟩
  · exact ⟨fun _ => ⟨_, rfl, rfl⟩, fun _ hn _ _ => absurd h2 hn⟩
  · exact ⟨fun _ => ⟨_, rfl, rfl⟩, fun _ _ hn _ => absurd h3 hn⟩
  · exact ⟨fun _ => ⟨_, rfl, rfl⟩, fun _ _ _ hn => absurd h4 hn⟩
  · refine ⟨fun h => ?_, fun _ _ _ _ => rfl⟩
    rcases h with h | h | h | h
    exacts [absurd h h1, absurd h h2, absurd h h3, absurd h h4]

/-- C10 witness: a rejected project with empty `ID` (store untouched) and
an accepted project with empty `LocalPath`/`WorktreeDir` that reaches the
store layer, both evaluated concretely. -/
theorem manager_add_validation_witness :
    (∃ msg, project.Add demoInvalidProject 7 initState =
        .error (project.AddError.validation msg) ∧
      runOr initState (project.Add demoInvalidProject 7 initState) =
        initState) ∧
    project.Add demoDomainProject 7 initState =
      (CreateProject (project.toStorageProject demoDomainProject) 7
        initState).mapError project.AddError.store :=
  ⟨(manager_add_validation demoInvalidProject 7 initState).1 (Or.inl rfl),
   (manager_add_validation demoDomainProject 7 initState).2
     (by decide) (by decide) (by decide) (by decide)⟩

end IssueFlow
